import Mathlib

set_option maxRecDepth 8000

/-!
Verification of the marginfi-bot account-state synchronization core: the
snapshot store (src/cache/snapshot.rs), the adaptive partition fetch
(src/comms/rpc_comms_client.rs) and the service orchestration (src/service.rs).
Machine integers are modelled as Nat (unsigned) and Int (signed), reduced
modulo 2 ^ w exactly where the code can wrap. File contents are byte lists,
a file system is a map from paths to optional contents, and fallible
operations return Except or Option.
-/

/-- Number of bytes of a Solana public key (constant PUBKEY_BYTES in
rpc_comms_client.rs). -/
def PUBKEY_BYTES : Nat := 32

/-- Snapshot format version (constant SNAPSHOT_VERSION in cache/snapshot.rs). -/
def SNAPSHOT_VERSION : Nat := 1

/-- Batch size of the multi-address fetch (constant ADDRESSES_CHUNK_SIZE in
rpc_comms_client.rs). -/
def ADDRESSES_CHUNK_SIZE : Nat := 100

/-- A Solana public key, modelled as its 32 raw bytes. -/
abbrev Pubkey := List Nat

/-- Model of solana_sdk Clock: slot (u64), epoch_start_timestamp (i64),
epoch (u64), leader_schedule_epoch (u64), unix_timestamp (i64). The i64
fields are Int, the u64 fields Nat. -/
structure Clock where
  slot : Nat
  epoch_start_timestamp : Int
  epoch : Nat
  leader_schedule_epoch : Nat
  unix_timestamp : Int
deriving DecidableEq

/-- SnapshotAccount (cache/snapshot.rs lines 15-20): address, capture slot and
raw payload bytes of one cached account record. -/
structure SnapshotAccount where
  address : Pubkey
  slot : Nat
  data : List Nat
deriving DecidableEq

/-- CacheSnapshot (cache/snapshot.rs lines 32-39): versioned envelope holding
the clock and both collections. -/
structure CacheSnapshot where
  version : Nat
  generated_at_unix : Nat
  clock : Clock
  marginfi_accounts : List SnapshotAccount
  banks : List SnapshotAccount
deriving DecidableEq

/-- Modelled from the spec: the Cache type itself lives in cache/mod.rs, which
is not among the sources; per the spec it owns the Clock and the two account
collections, get_clock and update_clock replace the clock wholesale,
snapshot_entries reads a whole collection and restore_from_snapshot replaces a
whole collection atomically. -/
structure Cache where
  clock : Clock
  marginfi_accounts : List SnapshotAccount
  banks : List SnapshotAccount
deriving DecidableEq

/-- Modelled from the spec: get_clock returns the current Clock value. -/
def Cache.get_clock (c : Cache) : Clock := c.clock

/-- Modelled from the spec: update_clock replaces the Clock wholesale. -/
def Cache.update_clock (c : Cache) (clk : Clock) : Cache := { c with clock := clk }

/-- Modelled from the spec: whole-collection replacement of the margin-account
collection. -/
def Cache.restore_marginfi_from_snapshot (c : Cache) (records : List SnapshotAccount) : Cache :=
  { c with marginfi_accounts := records }

/-- Modelled from the spec: whole-collection replacement of the bank
collection. -/
def Cache.restore_banks_from_snapshot (c : Cache) (records : List SnapshotAccount) : Cache :=
  { c with banks := records }

/-- CacheSnapshot::capture (cache/snapshot.rs lines 42-53). The wall clock
reading SystemTime::now is passed explicitly as now. -/
def CacheSnapshot.capture (cache : Cache) (now : Nat) : CacheSnapshot :=
  { version := SNAPSHOT_VERSION
    generated_at_unix := now
    clock := cache.get_clock
    marginfi_accounts := cache.marginfi_accounts
    banks := cache.banks }

/-- Little-endian encoding of a natural number on k bytes, as bincode fixint
encoding writes unsigned integers (the value is implicitly reduced mod
256 ^ k, mirroring the machine representation). -/
def natToLE : Nat → Nat → List Nat
  | 0, _ => []
  | k + 1, n => n % 256 :: natToLE k (n / 256)

/-- Value of a little-endian byte list. -/
def leToNat : List Nat → Nat
  | [] => 0
  | b :: bs => b + 256 * leToNat bs

/-- bincode encoding of an i64: the 8-byte little-endian two-complement
pattern, i.e. the value reduced into [0, 2 ^ 64). -/
def encodeI64 (i : Int) : List Nat := natToLE 8 (i % (2 ^ 64 : Int)).toNat

/-- bincode encoding of the Clock struct: its five fields in order. -/
def encodeClock (c : Clock) : List Nat :=
  natToLE 8 c.slot ++ encodeI64 c.epoch_start_timestamp ++ natToLE 8 c.epoch ++
    natToLE 8 c.leader_schedule_epoch ++ encodeI64 c.unix_timestamp

/-- bincode encoding of a Vec of u8: u64 length then the raw bytes. -/
def encodeBytesVec (d : List Nat) : List Nat := natToLE 8 d.length ++ d

/-- bincode encoding of a SnapshotAccount: 32 raw address bytes (a fixed-size
array has no length marker), the u64 slot, then the data vector. -/
def encodeAccount (a : SnapshotAccount) : List Nat :=
  a.address ++ natToLE 8 a.slot ++ encodeBytesVec a.data

/-- bincode encoding of a Vec of SnapshotAccount: u64 length then the
encodings of the elements. -/
def encodeAccountVec (l : List SnapshotAccount) : List Nat :=
  natToLE 8 l.length ++ (l.map encodeAccount).flatten

/-- bincode serialization of a CacheSnapshot: the five fields in declaration
order, the u32 version first. -/
def encodeSnapshot (s : CacheSnapshot) : List Nat :=
  natToLE 4 s.version ++ natToLE 8 s.generated_at_unix ++ encodeClock s.clock ++
    encodeAccountVec s.marginfi_accounts ++ encodeAccountVec s.banks

/-- Take exactly k bytes from the front of the input, failing on short input. -/
def readBytes (k : Nat) (bs : List Nat) : Option (List Nat × List Nat) :=
  if k ≤ bs.length then some (bs.take k, bs.drop k) else none

/-- Read a k-byte little-endian unsigned integer. -/
def readLE (k : Nat) (bs : List Nat) : Option (Nat × List Nat) :=
  match readBytes k bs with
  | none => none
  | some (xs, rest) => some (leToNat xs, rest)

/-- Read an i64: the 8-byte pattern, reinterpreted as a signed value. -/
def readI64 (bs : List Nat) : Option (Int × List Nat) :=
  match readLE 8 bs with
  | none => none
  | some (n, rest) =>
    some (if n < 2 ^ 63 then (n : Int) else (n : Int) - 2 ^ 64, rest)

/-- bincode deserialization of the Clock struct. -/
def readClock (bs : List Nat) : Option (Clock × List Nat) :=
  match readLE 8 bs with
  | none => none
  | some (slot, bs1) =>
    match readI64 bs1 with
    | none => none
    | some (est, bs2) =>
      match readLE 8 bs2 with
      | none => none
      | some (epoch, bs3) =>
        match readLE 8 bs3 with
        | none => none
        | some (lse, bs4) =>
          match readI64 bs4 with
          | none => none
          | some (ut, bs5) => some (⟨slot, est, epoch, lse, ut⟩, bs5)

/-- bincode deserialization of a Vec of u8. -/
def readBytesVec (bs : List Nat) : Option (List Nat × List Nat) :=
  match readLE 8 bs with
  | none => none
  | some (n, rest) => readBytes n rest

/-- bincode deserialization of a SnapshotAccount. -/
def readAccount (bs : List Nat) : Option (SnapshotAccount × List Nat) :=
  match readBytes PUBKEY_BYTES bs with
  | none => none
  | some (addr, bs1) =>
    match readLE 8 bs1 with
    | none => none
    | some (slot, bs2) =>
      match readBytesVec bs2 with
      | none => none
      | some (data, bs3) => some (⟨addr, slot, data⟩, bs3)

/-- bincode deserialization of n consecutive SnapshotAccount values. -/
def readAccountList : Nat → List Nat → Option (List SnapshotAccount × List Nat)
  | 0, bs => some ([], bs)
  | n + 1, bs =>
    match readAccount bs with
    | none => none
    | some (a, bs1) =>
      match readAccountList n bs1 with
      | none => none
      | some (rest, bs2) => some (a :: rest, bs2)

/-- bincode deserialization of a Vec of SnapshotAccount. -/
def readAccountVec (bs : List Nat) : Option (List SnapshotAccount × List Nat) :=
  match readLE 8 bs with
  | none => none
  | some (n, rest) => readAccountList n rest

/-- bincode deserialization of a CacheSnapshot. -/
def readSnapshot (bs : List Nat) : Option (CacheSnapshot × List Nat) :=
  match readLE 4 bs with
  | none => none
  | some (version, bs1) =>
    match readLE 8 bs1 with
    | none => none
    | some (gen, bs2) =>
      match readClock bs2 with
      | none => none
      | some (clk, bs3) =>
        match readAccountVec bs3 with
        | none => none
        | some (m, bs4) =>
          match readAccountVec bs4 with
          | none => none
          | some (b, bs5) => some (⟨version, gen, clk, m, b⟩, bs5)

/-- bincode::deserialize of a CacheSnapshot from a byte buffer (bincode 1.x
does not reject trailing bytes). -/
def decodeSnapshot (bs : List Nat) : Option CacheSnapshot :=
  match readSnapshot bs with
  | none => none
  | some (s, _) => some s

/-- A file system state: each path holds either nothing or a byte list. -/
def FS := String → Option (List Nat)

/-- fs::write - create or truncate the file at p, then its content is d. -/
def fsWrite (fs : FS) (p : String) (d : List Nat) : FS :=
  fun q => if q = p then some d else fs q

/-- fs::rename - atomically move the file at src over dst (a rename of a path
onto itself leaves the file in place, as on POSIX). -/
def fsRename (fs : FS) (src dst : String) : FS :=
  fun q => if q = dst then fs src else if q = src then none else fs q

/-- Index of the last dot of a file name, if it has one. -/
def lastDotIdx (cs : List Char) : Option Nat :=
  if ('.') ∈ cs then some (cs.length - 1 - cs.reverse.indexOf ('.')) else none

/-- Model of rust Path::with_extension applied with "tmp", for a path that is a
plain file name: the extension - the suffix after the last dot, where a dot in
leading position marks a hidden file rather than an extension - is replaced by
tmp, and a name without extension gets .tmp appended. -/
def with_extension_tmp (path : String) : String :=
  match lastDotIdx path.data with
  | none => String.mk (path.data ++ (".tmp").data)
  | some i =>
    if i = 0 then String.mk (path.data ++ (".tmp").data)
    else String.mk (path.data.take i ++ (".tmp").data)

/-- restore_cache_snapshot (cache/snapshot.rs lines 56-77). Returns the rust
Result of bool paired with the resulting cache state: Ok false when the file
is absent or its version field differs from SNAPSHOT_VERSION, an error when
the contents do not deserialize, and Ok true with the replaced clock and
collections otherwise. -/
def restore_cache_snapshot (cache : Cache) (fs : FS) (path : String) :
    Except String Bool × Cache :=
  match fs path with
  | none => (Except.ok false, cache)
  | some bytes =>
    match decodeSnapshot bytes with
    | none => (Except.error (("Failed to deserialize cache snapshot ") ++ path), cache)
    | some snapshot =>
      if snapshot.version ≠ SNAPSHOT_VERSION then (Except.ok false, cache)
      else
        (Except.ok true,
          ((cache.update_clock snapshot.clock).restore_marginfi_from_snapshot
              snapshot.marginfi_accounts).restore_banks_from_snapshot snapshot.banks)

/-- persist_cache_snapshot (cache/snapshot.rs lines 79-93): capture the cache,
serialize it, write the bytes to the sibling tmp path, then rename the tmp
path over the target. Returns the final file system state. -/
def persist_cache_snapshot (cache : Cache) (fs : FS) (path : String) (now : Nat) : FS :=
  let data := encodeSnapshot (CacheSnapshot.capture cache now)
  let tmp_path := with_extension_tmp path
  fsRename (fsWrite fs tmp_path data) tmp_path path

/-- The file system states passed through while fs::write fills the file at p:
the file is first truncated and then extended byte by byte, so a crash can
leave any prefix of the data behind. -/
def writeStates (fs : FS) (p : String) (data : List Nat) : List FS :=
  (List.range (data.length + 1)).map (fun k => fsWrite fs p (data.take k))

/-- Every file system state an interruption of persist_cache_snapshot can
leave behind: the state before any effect, each partial state of the
temporary-file write, and the state after the atomic rename. -/
def persist_crash_states (cache : Cache) (fs : FS) (path : String) (now : Nat) : List FS :=
  let data := encodeSnapshot (CacheSnapshot.capture cache now)
  let tmp_path := with_extension_tmp path
  fs :: (writeStates fs tmp_path data ++ [persist_cache_snapshot cache fs path now])

/-- Error text pattern of the server scan-size rejection
(rpc_comms_client.rs line 231). -/
def scanLimitPattern : String :=
  "scan aborted: The accumulated scan results exceeded the limit"

/-- RpcCommsClient::is_scan_limit_error (rpc_comms_client.rs lines 229-232):
the error text contains the scan-limit pattern as a substring. -/
def is_scan_limit_error (e : String) : Bool :=
  decide (scanLimitPattern.data <:+: e.data)

mutual
/-- RpcCommsClient::fetch_marginfi_accounts_for_prefix (rpc_comms_client.rs
lines 167-227), for a fixed program id and group key: query pfx stands for
get_program_accounts_with_filters invoked with the MarginfiAccount type
filters, the group memcmp filter, and - when pfx is nonempty - the
owner-authority memcmp filter for the byte string pfx. The function returns
the rust result paired with the list of authority-prefix filters of the
queries actually issued, in issue order. On a scan-limit error it refuses to
split once the running byte string has reached PUBKEY_BYTES, and otherwise
fans out over the 256 possible next bytes depth-first. -/
def fetch_marginfi_accounts_for_pfx (query : List Nat → Except String (List α))
    (pfx : List Nat) : Except String (List α) × List (List Nat) :=
  match query pfx with
  | Except.ok accounts => (Except.ok accounts, [pfx])
  | Except.error err =>
    if is_scan_limit_error err then
      if h : PUBKEY_BYTES ≤ pfx.length then (Except.error err, [pfx])
      else
        let r := fanout_next_byte query pfx (List.range 256)
        (r.1, pfx :: r.2)
    else (Except.error err, [pfx])
termination_by (33 - pfx.length) * 258
decreasing_by
  simp only [PUBKEY_BYTES] at h
  simp only [List.length_range]
  omega

/-- The sequential loop for byte in 0..=255 inside the scan-limit branch: each
sub-fetch runs on the byte string extended by one byte, results are
concatenated, and the first error aborts the loop (the rust question-mark
operator). -/
def fanout_next_byte (query : List Nat → Except String (List α))
    (pfx : List Nat) (bytes : List Nat) : Except String (List α) × List (List Nat) :=
  match bytes with
  | [] => (Except.ok [], [])
  | b :: rest =>
    match fetch_marginfi_accounts_for_pfx query (pfx ++ [b]) with
    | (Except.error e, t) => (Except.error e, t)
    | (Except.ok accs, t) =>
      match fanout_next_byte query pfx rest with
      | (Except.error e, t2) => (Except.error e, t ++ t2)
      | (Except.ok more, t2) => (Except.ok (accs ++ more), t ++ t2)
termination_by (32 - pfx.length) * 258 + bytes.length + 1
decreasing_by
  all_goals simp only [List.length_append, List.length_cons, List.length_nil]
  all_goals omega
end

/-- RpcCommsClient::get_accounts (rpc_comms_client.rs lines 74-87), with the
remote get_multiple_accounts call abstracted as rpc: the address list is
walked in chunks of ADDRESSES_CHUNK_SIZE, each chunk is looked up in one
request, and each address is paired with its account when the response slot
holds one, missing accounts being skipped. Returns the rust result paired
with the list of issued request batches, in issue order. -/
def get_accounts (rpc : List Pubkey → Except String (List (Option α)))
    (addresses : List Pubkey) : Except String (List (Pubkey × α)) × List (List Pubkey) :=
  match addresses with
  | [] => (Except.ok [], [])
  | a :: rest0 =>
    let chunk := (a :: rest0).take ADDRESSES_CHUNK_SIZE
    let rest := (a :: rest0).drop ADDRESSES_CHUNK_SIZE
    match rpc chunk with
    | Except.error e => (Except.error e, [chunk])
    | Except.ok accounts =>
      let tuples := (chunk.zip accounts).filterMap
        (fun p => p.2.map (fun acct => (p.1, acct)))
      let r := get_accounts rpc rest
      (match r.1 with
       | Except.error e => Except.error e
       | Except.ok more => Except.ok (tuples ++ more), chunk :: r.2)
termination_by addresses.length
decreasing_by
  simp only [ADDRESSES_CHUNK_SIZE, List.length_drop, List.length_cons]
  omega

/-- The successive chunks of ADDRESSES_CHUNK_SIZE addresses, as produced by
slice::chunks: all full except possibly the last, never empty. -/
def chunks100 : List Pubkey → List (List Pubkey)
  | [] => []
  | a :: rest0 =>
    (a :: rest0).take ADDRESSES_CHUNK_SIZE :: chunks100 ((a :: rest0).drop ADDRESSES_CHUNK_SIZE)
termination_by l => l.length
decreasing_by
  simp only [ADDRESSES_CHUNK_SIZE, List.length_drop, List.length_cons]
  omega

/-- Observable steps of the orchestrator startup sequence. -/
inductive StartEvent
  | restoreSnap
  | loadAuxiliary
  | loadCache
  | persistAttempt
  | warnPersistFailed
  | spawnWorkers
deriving DecidableEq, BEq

/-- Outcomes of the collaborator calls made by ServiceManager::start: the
snapshot restore, CacheLoader::load_auxiliary_accounts,
CacheLoader::load_cache and the initial persist_cache_snapshot. -/
structure StartEnv where
  restore_result : Except String Bool
  load_auxiliary_result : Except String Unit
  load_cache_result : Except String Unit
  persist_result : Except String Unit

/-- ServiceManager::start (service.rs lines 80-135) up to entering the main
loop: on Ok true from restore the auxiliary load runs and its error
propagates; on Ok false, or on a restore error (which is only logged), the
full load_cache bootstrap runs with its error propagating, then exactly one
initial persist is attempted whose failure is only logged; finally the three
workers are spawned. Returns the propagated error or the ordered event
trace. -/
def service_manager_start (env : StartEnv) : Except String (List StartEvent) :=
  match env.restore_result with
  | Except.ok true =>
    match env.load_auxiliary_result with
    | Except.error e => Except.error e
    | Except.ok _ =>
      Except.ok [StartEvent.restoreSnap, StartEvent.loadAuxiliary, StartEvent.spawnWorkers]
  | Except.ok false =>
    match env.load_cache_result with
    | Except.error e => Except.error e
    | Except.ok _ =>
      Except.ok ([StartEvent.restoreSnap, StartEvent.loadCache, StartEvent.persistAttempt] ++
        (match env.persist_result with
         | Except.error _ => [StartEvent.warnPersistFailed]
         | Except.ok _ => []) ++ [StartEvent.spawnWorkers])
  | Except.error _ =>
    match env.load_cache_result with
    | Except.error e => Except.error e
    | Except.ok _ =>
      Except.ok ([StartEvent.restoreSnap, StartEvent.loadCache, StartEvent.persistAttempt] ++
        (match env.persist_result with
         | Except.error _ => [StartEvent.warnPersistFailed]
         | Except.ok _ => []) ++ [StartEvent.spawnWorkers])

/-- Effects a worker supervision closure can produce. -/
inductive WorkerEffect
  | loggedError (msg : String)
  | processAbort (msg : String)
  | restartWorker
deriving DecidableEq

/-- The closure wrapped around each worker run entrypoint by
ServiceManager::start (service.rs lines 113-135): nothing on success, and on
an error the log line followed by the fatal panic. Modelled from the spec for
the panic itself: the spec declares a worker panic to terminate the whole
process abruptly, and the build profile fixing the panic strategy is not among
the sources. -/
def worker_thread_body (label : String) (runResult : Except String Unit) : List WorkerEffect :=
  match runResult with
  | Except.ok _ => []
  | Except.error e =>
    [WorkerEffect.loggedError (label ++ (" failed! ") ++ e),
     WorkerEffect.processAbort (("Fatal error in ") ++ label ++ ("!"))]

/-- The three workers spawned by ServiceManager::start, in spawn order. -/
def worker_labels : List String :=
  [("GeyserProcessor"), ("GeyserSubscriber"), ("LiquidationService")]

/-- Range constraints under which a Clock value is representable: u64 fields
below 2 ^ 64 and i64 fields within the signed 64-bit range. -/
def WFClock (c : Clock) : Prop :=
  c.slot < 2 ^ 64 ∧ c.epoch < 2 ^ 64 ∧ c.leader_schedule_epoch < 2 ^ 64 ∧
    -(2 ^ 63) ≤ c.epoch_start_timestamp ∧ c.epoch_start_timestamp < 2 ^ 63 ∧
    -(2 ^ 63) ≤ c.unix_timestamp ∧ c.unix_timestamp < 2 ^ 63

/-- Range constraints of a representable SnapshotAccount: a 32-byte address, a
u64 slot, a data vector short enough for its u64 length marker. -/
def WFAccount (a : SnapshotAccount) : Prop :=
  a.address.length = PUBKEY_BYTES ∧ a.slot < 2 ^ 64 ∧ a.data.length < 2 ^ 64

/-- Range constraints of a representable CacheSnapshot. -/
def WFSnapshot (s : CacheSnapshot) : Prop :=
  s.version < 2 ^ 32 ∧ s.generated_at_unix < 2 ^ 64 ∧ WFClock s.clock ∧
    (∀ a ∈ s.marginfi_accounts, WFAccount a) ∧ (∀ a ∈ s.banks, WFAccount a) ∧
    s.marginfi_accounts.length < 2 ^ 64 ∧ s.banks.length < 2 ^ 64

/-- Range constraints of a representable Cache state. -/
def WFCache (c : Cache) : Prop :=
  WFClock c.clock ∧ (∀ a ∈ c.marginfi_accounts, WFAccount a) ∧
    (∀ a ∈ c.banks, WFAccount a) ∧
    c.marginfi_accounts.length < 2 ^ 64 ∧ c.banks.length < 2 ^ 64

instance (c : Clock) : Decidable (WFClock c) := by
  unfold WFClock
  infer_instance

instance (a : SnapshotAccount) : Decidable (WFAccount a) := by
  unfold WFAccount
  infer_instance

instance (s : CacheSnapshot) : Decidable (WFSnapshot s) := by
  unfold WFSnapshot
  infer_instance

instance (c : Cache) : Decidable (WFCache c) := by
  unfold WFCache
  infer_instance

deriving instance DecidableEq for Except

/-- A sample clock value. -/
def clockEx : Clock := ⟨7, 3, 2, 5, -(11 : Int)⟩

/-- A sample margin account record. -/
def accountEx : SnapshotAccount := ⟨List.replicate 32 1, 9, [4, 5]⟩

/-- A sample cache holding one margin account and no banks. -/
def cacheEx : Cache := ⟨clockEx, [accountEx], []⟩

/-- The empty file system. -/
def fsEmpty : FS := fun _ => none

/-- A file system whose snapshot file holds one byte of garbage. -/
def fsCorrupt : FS := fun q => if q = ("snap.bin") then some [0] else none

/-- A well-formed snapshot carrying the unexpected version 2. -/
def snapshotV2 : CacheSnapshot := ⟨2, 0, clockEx, [], []⟩

/-- A file system whose snapshot file holds a well-formed version-2 snapshot. -/
def fsV2 : FS := fun q => if q = ("snap.bin") then some (encodeSnapshot snapshotV2) else none

/-- A file system whose snapshot file declares version 2 in its first four
bytes but carries no further content, so the snapshot as a whole does not
deserialize. -/
def fsV2Trunc : FS := fun q => if q = ("snap.bin") then some [2, 0, 0, 0] else none

/-- A file system with pre-existing content at the path cache.tmp. -/
def fsTmpClash : FS := fun q => if q = ("cache.tmp") then some [9] else none

/-- A remote interface that rejects every query with the scan-limit error. -/
def queryAlwaysScanLimit : List Nat → Except String (List Nat) :=
  fun _ => Except.error scanLimitPattern

/-- A remote interface that fails every query with a plain error. -/
def queryOtherError : List Nat → Except String (List Nat) :=
  fun _ => Except.error ("connection reset")

/-- The full-length authority byte string 0x00 repeated 32 times. -/
def pfx32 : List Nat := List.replicate 32 0

/-- A sample lookup table behind the multi-address fetch. -/
def lookupEx : Pubkey → Option Nat :=
  fun a => if a = [1] then some 5 else none

/-- A pointwise-behaving remote multi-address interface over lookupEx. -/
def rpcEx : List Pubkey → Except String (List (Option Nat)) :=
  fun chunk => Except.ok (chunk.map lookupEx)

/-- A startup environment whose restore finds no snapshot and whose initial
persist fails. -/
def envBootstrap : StartEnv :=
  ⟨Except.ok false, Except.ok (), Except.ok (), Except.error ("disk full")⟩

/-- A startup environment whose restore succeeds but whose auxiliary load
fails. -/
def envAuxFail : StartEnv :=
  ⟨Except.ok true, Except.error ("aux load failed"), Except.ok (), Except.ok ()⟩

theorem natToLE_length (k n : Nat) : (natToLE k n).length = k := by
  induction k generalizing n with
  | zero => rfl
  | succ k ih => simp [natToLE, ih]

theorem leToNat_natToLE (k n : Nat) (h : n < 256 ^ k) : leToNat (natToLE k n) = n := by
  induction k generalizing n with
  | zero =>
    simp only [pow_zero] at h
    simp only [natToLE, leToNat]
    omega
  | succ k ih =>
    have hd : n / 256 < 256 ^ k := by
      have hp : (256 : Nat) ^ (k + 1) = 256 ^ k * 256 := pow_succ 256 k
      omega
    simp only [natToLE, leToNat]
    rw [ih (n / 256) hd]
    omega

theorem pow256_8 : (256 : Nat) ^ 8 = 2 ^ 64 := by norm_num

theorem pow256_4 : (256 : Nat) ^ 4 = 2 ^ 32 := by norm_num

theorem readBytes_exact (k : Nat) (xs : List Nat) (h : xs.length = k) (rest : List Nat) :
    readBytes k (xs ++ rest) = some (xs, rest) := by
  subst h
  rw [readBytes, if_pos]
  · rw [List.take_left, List.drop_left]
  · simp

theorem readLE_encode (k n : Nat) (h : n < 256 ^ k) (rest : List Nat) :
    readLE k (natToLE k n ++ rest) = some (n, rest) := by
  simp [readLE, readBytes_exact k (natToLE k n) (natToLE_length k n) rest,
    leToNat_natToLE k n h]

theorem readI64_encode (i : Int) (h1 : -(2 ^ 63) ≤ i) (h2 : i < 2 ^ 63) (rest : List Nat) :
    readI64 (encodeI64 i ++ rest) = some (i, rest) := by
  have hn : (i % (2 ^ 64 : Int)).toNat < 256 ^ 8 := by
    rw [pow256_8]
    omega
  simp only [encodeI64, readI64, readLE_encode 8 _ hn rest]
  split <;> simp only [Option.some.injEq, Prod.mk.injEq, and_true] <;> omega

theorem readClock_encode (c : Clock) (h : WFClock c) (rest : List Nat) :
    readClock (encodeClock c ++ rest) = some (c, rest) := by
  obtain ⟨hs, he, hl, hest1, hest2, hut1, hut2⟩ := h
  have hs8 : c.slot < 256 ^ 8 := by rw [pow256_8]; omega
  have he8 : c.epoch < 256 ^ 8 := by rw [pow256_8]; omega
  have hl8 : c.leader_schedule_epoch < 256 ^ 8 := by rw [pow256_8]; omega
  simp only [encodeClock, List.append_assoc, readClock,
    readLE_encode 8 c.slot hs8, readI64_encode c.epoch_start_timestamp hest1 hest2,
    readLE_encode 8 c.epoch he8, readLE_encode 8 c.leader_schedule_epoch hl8,
    readI64_encode c.unix_timestamp hut1 hut2]

theorem readBytesVec_encode (d : List Nat) (h : d.length < 2 ^ 64) (rest : List Nat) :
    readBytesVec (encodeBytesVec d ++ rest) = some (d, rest) := by
  have h8 : d.length < 256 ^ 8 := by rw [pow256_8]; omega
  simp only [encodeBytesVec, List.append_assoc, readBytesVec,
    readLE_encode 8 d.length h8, readBytes_exact d.length d rfl rest]

theorem readAccount_encode (a : SnapshotAccount) (h : WFAccount a) (rest : List Nat) :
    readAccount (encodeAccount a ++ rest) = some (a, rest) := by
  obtain ⟨ha, hs, hd⟩ := h
  have hs8 : a.slot < 256 ^ 8 := by rw [pow256_8]; omega
  simp only [encodeAccount, List.append_assoc, readAccount,
    readBytes_exact PUBKEY_BYTES a.address ha, readLE_encode 8 a.slot hs8,
    readBytesVec_encode a.data hd]

theorem readAccountList_encode (l : List SnapshotAccount) (h : ∀ a ∈ l, WFAccount a)
    (rest : List Nat) :
    readAccountList l.length ((l.map encodeAccount).flatten ++ rest) = some (l, rest) := by
  induction l generalizing rest with
  | nil => simp [readAccountList]
  | cons a l ih =>
    simp only [List.map_cons, List.flatten_cons, List.length_cons, List.append_assoc,
      readAccountList, readAccount_encode a (h a (by simp)),
      ih (fun x hx => h x (by simp [hx]))]

theorem readAccountVec_encode (l : List SnapshotAccount) (h : ∀ a ∈ l, WFAccount a)
    (hlen : l.length < 2 ^ 64) (rest : List Nat) :
    readAccountVec (encodeAccountVec l ++ rest) = some (l, rest) := by
  have h8 : l.length < 256 ^ 8 := by rw [pow256_8]; omega
  simp only [encodeAccountVec, List.append_assoc, readAccountVec,
    readLE_encode 8 l.length h8, readAccountList_encode l h]

theorem readSnapshot_encode (s : CacheSnapshot) (h : WFSnapshot s) (rest : List Nat) :
    readSnapshot (encodeSnapshot s ++ rest) = some (s, rest) := by
  obtain ⟨hv, hg, hc, hm, hb, hml, hbl⟩ := h
  have hv4 : s.version < 256 ^ 4 := by rw [pow256_4]; omega
  have hg8 : s.generated_at_unix < 256 ^ 8 := by rw [pow256_8]; omega
  simp only [encodeSnapshot, List.append_assoc, readSnapshot,
    readLE_encode 4 s.version hv4, readLE_encode 8 s.generated_at_unix hg8,
    readClock_encode s.clock hc, readAccountVec_encode s.marginfi_accounts hm hml,
    readAccountVec_encode s.banks hb hbl]

theorem decodeSnapshot_encode (s : CacheSnapshot) (h : WFSnapshot s) :
    decodeSnapshot (encodeSnapshot s) = some s := by
  have hrt := readSnapshot_encode s h []
  rw [List.append_nil] at hrt
  simp [decodeSnapshot, hrt]

theorem wf_capture (cache : Cache) (now : Nat) (hwf : WFCache cache) (hnow : now < 2 ^ 64) :
    WFSnapshot (CacheSnapshot.capture cache now) := by
  obtain ⟨hc, hm, hb, hml, hbl⟩ := hwf
  refine ⟨?_, hnow, hc, hm, hb, hml, hbl⟩
  norm_num [CacheSnapshot.capture, SNAPSHOT_VERSION]

/-- Claim C1: persisting a snapshot of a representable cache state and then
restoring from the same path, with no intervening version change, returns Ok
true and produces a cache observably equal to the persisted one - same clock,
same margin-account collection, same bank collection - independent of the
cache state the restore starts from. -/
theorem snapshot_round_trip (cache target : Cache) (fs : FS) (path : String) (now : Nat)
    (hwf : WFCache cache) (hnow : now < 2 ^ 64) :
    restore_cache_snapshot target (persist_cache_snapshot cache fs path now) path =
      (Except.ok true, Cache.mk cache.clock cache.marginfi_accounts cache.banks) := by
  have hfile : persist_cache_snapshot cache fs path now path =
      some (encodeSnapshot (CacheSnapshot.capture cache now)) := by
    simp [persist_cache_snapshot, fsRename, fsWrite]
  have hdec := decodeSnapshot_encode (CacheSnapshot.capture cache now)
    (wf_capture cache now hwf hnow)
  unfold restore_cache_snapshot
  rw [hfile]
  have hv : (CacheSnapshot.capture cache now).version = SNAPSHOT_VERSION := rfl
  have hclk : (CacheSnapshot.capture cache now).clock = cache.clock := rfl
  have hm : (CacheSnapshot.capture cache now).marginfi_accounts = cache.marginfi_accounts := rfl
  have hb : (CacheSnapshot.capture cache now).banks = cache.banks := rfl
  simp [hdec, hv, hclk, hm, hb, Cache.update_clock,
    Cache.restore_marginfi_from_snapshot, Cache.restore_banks_from_snapshot]

/-- Witness for C1 at a concrete cache, file system, path and time. -/
theorem snapshot_round_trip_witness :
    WFCache cacheEx ∧ (3 : Nat) < 2 ^ 64 ∧
      restore_cache_snapshot cacheEx
          (persist_cache_snapshot cacheEx fsEmpty ("snapshot.bin") 3) ("snapshot.bin") =
        (Except.ok true, Cache.mk cacheEx.clock cacheEx.marginfi_accounts cacheEx.banks) :=
  ⟨by decide, by decide,
    snapshot_round_trip cacheEx cacheEx fsEmpty ("snapshot.bin") 3 (by decide) (by decide)⟩

/-- Counterexample to claim C3: a snapshot file holding a single garbage byte
cannot be deserialized, and restore then returns an error rather than the
Ok false the claim asserts. -/
theorem restore_corrupt_not_ok_false :
    restore_cache_snapshot cacheEx fsCorrupt ("snap.bin") ≠ (Except.ok false, cacheEx) := by
  decide

/-- Claim C3 (amended): for every path whose file contents fail to deserialize
as a snapshot, restore returns the deserialization error - which the
orchestrator in turn treats like a missing snapshot - and leaves the Cache
unmodified. -/
theorem restore_decode_error (cache : Cache) (fs : FS) (path : String) (bytes : List Nat)
    (hread : fs path = some bytes) (hdec : decodeSnapshot bytes = none) :
    restore_cache_snapshot cache fs path =
      (Except.error (("Failed to deserialize cache snapshot ") ++ path), cache) := by
  simp [restore_cache_snapshot, hread, hdec]

/-- Witness for the amended C3 at the one-byte garbage file. -/
theorem restore_decode_error_witness :
    restore_cache_snapshot cacheEx fsCorrupt ("snap.bin") =
      (Except.error (("Failed to deserialize cache snapshot ") ++ ("snap.bin")), cacheEx) :=
  restore_decode_error cacheEx fsCorrupt ("snap.bin") [0] (by decide) (by decide)

/-- Counterexample to claim C4 as stated: the version gate sits after the
whole-struct deserialization (snapshot.rs line 64 precedes line 67), so a file
whose first four bytes declare version 2 but whose remainder is ill-formed
(here: missing) makes restore return a deserialization error, not the claimed
Ok false. -/
theorem restore_version_mismatch_ill_formed_not_ok_false :
    restore_cache_snapshot cacheEx fsV2Trunc ("snap.bin") ≠ (Except.ok false, cacheEx) := by
  decide

/-- Claim C4 (amended): restore returns Ok false - no error - and leaves the
Cache entirely unmodified when no file exists at the path; and for every file
that deserializes to a snapshot whose declared version differs from
SNAPSHOT_VERSION - the whole snapshot is deserialized before the version
check, so this covers any content beyond what deserialization itself accepts -
restore returns Ok false and leaves the Cache unmodified. A version-mismatched
file whose remainder fails deserialization instead yields an error, with the
Cache still unmodified. -/
theorem restore_absent_or_version_gate (cache : Cache) (fs : FS) (path : String) :
    (fs path = none → restore_cache_snapshot cache fs path = (Except.ok false, cache)) ∧
    (∀ bytes s, fs path = some bytes → decodeSnapshot bytes = some s →
      s.version ≠ SNAPSHOT_VERSION →
      restore_cache_snapshot cache fs path = (Except.ok false, cache)) := by
  constructor
  · intro h1
    simp [restore_cache_snapshot, h1]
  · intro bytes s h1 h2 h3
    simp [restore_cache_snapshot, h1, h2, h3]

/-- Witness for C4: the empty file system, and a file holding a well-formed
snapshot that declares version 2. -/
theorem restore_absent_or_version_gate_witness :
    restore_cache_snapshot cacheEx fsEmpty ("snap.bin") = (Except.ok false, cacheEx) ∧
    restore_cache_snapshot cacheEx fsV2 ("snap.bin") = (Except.ok false, cacheEx) :=
  ⟨(restore_absent_or_version_gate cacheEx fsEmpty ("snap.bin")).1 rfl,
    (restore_absent_or_version_gate cacheEx fsV2 ("snap.bin")).2 (encodeSnapshot snapshotV2)
      snapshotV2 (by decide) (by decide) (by decide)⟩

/-- Counterexample to claim C7: when the configured target path itself carries
the tmp extension, with_extension collapses the temporary path onto the
target, so the crash state at the start of the temporary-file write leaves the
target truncated to zero bytes - neither its pre-persist content nor the full
serialized snapshot. -/
theorem persist_not_atomic_on_tmp_path :
    ¬ (∀ s ∈ persist_crash_states cacheEx fsTmpClash ("cache.tmp") 0,
        s ("cache.tmp") = fsTmpClash ("cache.tmp") ∨
          s ("cache.tmp") = some (encodeSnapshot (CacheSnapshot.capture cacheEx 0))) := by
  intro hall
  have h0 : (0 : Nat) ∈
      List.range ((encodeSnapshot (CacheSnapshot.capture cacheEx 0)).length + 1) :=
    List.mem_range.mpr (by omega)
  have hmem2 := List.mem_map_of_mem
    (fun k => fsWrite fsTmpClash (with_extension_tmp ("cache.tmp"))
      ((encodeSnapshot (CacheSnapshot.capture cacheEx 0)).take k)) h0
  have hmem : fsWrite fsTmpClash (with_extension_tmp ("cache.tmp"))
      (List.take 0 (encodeSnapshot (CacheSnapshot.capture cacheEx 0))) ∈
      persist_crash_states cacheEx fsTmpClash ("cache.tmp") 0 :=
    List.mem_cons_of_mem _ (List.mem_append_left _ hmem2)
  exact absurd (hall _ hmem) (by decide)

/-- Claim C7 (amended): provided the derived temporary path differs from the
target path - equivalently the target does not already use the tmp extension,
the case the counterexample exhibits - every state an interruption of persist
can leave behind, including all partial states of the temporary-file write and
the state after the rename, holds at the target path either the pre-persist
content or the complete serialized snapshot: the target is never missing or
truncated. -/
theorem persist_atomic (cache : Cache) (fs : FS) (path : String) (now : Nat)
    (hne : with_extension_tmp path ≠ path) :
    ∀ s ∈ persist_crash_states cache fs path now,
      s path = fs path ∨ s path = some (encodeSnapshot (CacheSnapshot.capture cache now)) := by
  intro s hs
  simp only [persist_crash_states, writeStates] at hs
  rcases List.mem_cons.mp hs with rfl | hs
  · exact Or.inl rfl
  rcases List.mem_append.mp hs with hs | hs
  · rcases List.mem_map.mp hs with ⟨k, _, rfl⟩
    left
    simp only [fsWrite]
    rw [if_neg (Ne.symm hne)]
  · rw [List.mem_singleton.mp hs]
    right
    simp [persist_cache_snapshot, fsRename, fsWrite]

/-- Witness for the amended C7: a bin-extension target path, checked at the
post-rename crash state. -/
theorem persist_atomic_witness :
    with_extension_tmp ("snapshot.bin") ≠ ("snapshot.bin") ∧
      (persist_cache_snapshot cacheEx fsEmpty ("snapshot.bin") 0 ("snapshot.bin") =
          fsEmpty ("snapshot.bin") ∨
        persist_cache_snapshot cacheEx fsEmpty ("snapshot.bin") 0 ("snapshot.bin") =
          some (encodeSnapshot (CacheSnapshot.capture cacheEx 0))) :=
  ⟨by decide,
    persist_atomic cacheEx fsEmpty ("snapshot.bin") 0 (by decide) _
      (List.mem_cons_of_mem _ (List.mem_append_right _ (List.mem_singleton.mpr rfl)))⟩

theorem fanout_trace_bound {α : Type} (query : List Nat → Except String (List α))
    (pfx : List Nat)
    (IH : ∀ b p, p ∈ (fetch_marginfi_accounts_for_pfx query (pfx ++ [b])).2 →
      p.length ≤ PUBKEY_BYTES) :
    ∀ bytes p, p ∈ (fanout_next_byte query pfx bytes).2 → p.length ≤ PUBKEY_BYTES := by
  intro bytes
  induction bytes with
  | nil =>
    intro p hp
    simp [fanout_next_byte] at hp
  | cons b rest ih =>
    intro p hp
    simp only [fanout_next_byte] at hp
    rcases hfe : fetch_marginfi_accounts_for_pfx query (pfx ++ [b]) with ⟨r, t⟩
    rw [hfe] at hp
    cases r with
    | error e =>
      simp at hp
      exact IH b p (by rw [hfe]; simpa using hp)
    | ok accs =>
      rcases hfa : fanout_next_byte query pfx rest with ⟨r2, t2⟩
      rw [hfa] at hp
      cases r2 with
      | error e2 =>
        simp at hp
        rcases hp with hp | hp
        · exact IH b p (by rw [hfe]; simpa using hp)
        · exact ih p (by rw [hfa]; simpa using hp)
      | ok more =>
        simp at hp
        rcases hp with hp | hp
        · exact IH b p (by rw [hfe]; simpa using hp)
        · exact ih p (by rw [hfa]; simpa using hp)

theorem fetch_trace_bound {α : Type} (query : List Nat → Except String (List α)) :
    ∀ n pfx, PUBKEY_BYTES - pfx.length ≤ n → pfx.length ≤ PUBKEY_BYTES →
      ∀ p ∈ (fetch_marginfi_accounts_for_pfx query pfx).2, p.length ≤ PUBKEY_BYTES := by
  intro n
  induction n with
  | zero =>
    intro pfx h1 h2 p hp
    simp only [fetch_marginfi_accounts_for_pfx] at hp
    split at hp
    · simp at hp
      subst hp
      exact h2
    · split at hp
      · split at hp
        · simp at hp
          subst hp
          exact h2
        · rename_i hlt
          simp only [PUBKEY_BYTES] at h1 hlt
          omega
      · simp at hp
        subst hp
        exact h2
  | succ n ih =>
    intro pfx h1 h2 p hp
    simp only [fetch_marginfi_accounts_for_pfx] at hp
    split at hp
    · simp at hp
      subst hp
      exact h2
    · split at hp
      · split at hp
        · simp at hp
          subst hp
          exact h2
        · rename_i hlt
          simp at hp
          rcases hp with rfl | hp2
          · exact h2
          · refine fanout_trace_bound query pfx ?_ (List.range 256) p hp2
            intro b q hq2
            refine ih (pfx ++ [b]) ?_ ?_ q hq2
            · simp only [List.length_append, List.length_cons, List.length_nil,
                PUBKEY_BYTES] at *
              omega
            · simp only [List.length_append, List.length_cons, List.length_nil,
                PUBKEY_BYTES] at *
              omega
      · simp at hp
        subst hp
        exact h2

/-- Claim C2: the partition search is a total Lean function, so it terminates
against every remote interface; starting from any admissible prefix every
query it issues carries an owner-authority prefix filter of at most
PUBKEY_BYTES (32) bytes, and when a query whose prefix has already reached 32
bytes is still rejected with the scan-size-exceeded condition, the fetch
returns that error as fatal instead of partitioning further. -/
theorem fetch_pfx_bounded_and_floor {α : Type} (query : List Nat → Except String (List α))
    (pfx : List Nat) (hlen : pfx.length ≤ PUBKEY_BYTES) :
    (∀ p ∈ (fetch_marginfi_accounts_for_pfx query pfx).2, p.length ≤ PUBKEY_BYTES) ∧
    (∀ e, pfx.length = PUBKEY_BYTES → query pfx = Except.error e →
      is_scan_limit_error e = true →
      fetch_marginfi_accounts_for_pfx query pfx = (Except.error e, [pfx])) := by
  constructor
  · exact fun p hp =>
      fetch_trace_bound query (PUBKEY_BYTES - pfx.length) pfx le_rfl hlen p hp
  · intro e hfull hq hscan
    unfold fetch_marginfi_accounts_for_pfx
    rw [hq]
    simp [hscan, hfull]

/-- Witness for C2: the always-rejecting interface queried at a full 32-byte
prefix returns the scan error as fatal, with exactly that one query issued. -/
theorem fetch_pfx_bounded_and_floor_witness :
    fetch_marginfi_accounts_for_pfx queryAlwaysScanLimit pfx32 =
      (Except.error scanLimitPattern, [pfx32]) :=
  (fetch_pfx_bounded_and_floor queryAlwaysScanLimit pfx32 (by decide)).2 scanLimitPattern
    (by decide) rfl (by decide)

/-- Claim C5: a remote-call error that does not contain the scan-size-exceeded
text pattern is returned to the caller unchanged, with only that single query
issued and no 256-way partition fan-out. -/
theorem non_scan_error_short_circuits {α : Type} (query : List Nat → Except String (List α))
    (pfx : List Nat) (e : String) (hq : query pfx = Except.error e)
    (hnot : is_scan_limit_error e = false) :
    fetch_marginfi_accounts_for_pfx query pfx = (Except.error e, [pfx]) := by
  unfold fetch_marginfi_accounts_for_pfx
  rw [hq]
  simp [hnot]

/-- Witness for C5: a connection-reset error aborts the fetch with no
fan-out. -/
theorem non_scan_error_short_circuits_witness :
    fetch_marginfi_accounts_for_pfx queryOtherError [] =
      (Except.error ("connection reset"), [([] : List Nat)]) :=
  non_scan_error_short_circuits queryOtherError [] ("connection reset") rfl (by decide)

theorem zip_map_filterMap {α : Type} (lookup : Pubkey → Option α) (l : List Pubkey) :
    (l.zip (l.map lookup)).filterMap (fun p => p.2.map (fun acct => (p.1, acct))) =
      l.filterMap (fun a => (lookup a).map (fun acct => (a, acct))) := by
  induction l with
  | nil => rfl
  | cons a l ih =>
    cases hl : lookup a with
    | none => simp [List.filterMap_cons, hl, ih]
    | some v => simp [List.filterMap_cons, hl, ih]

theorem chunks100_join (l : List Pubkey) : (chunks100 l).flatten = l := by
  suffices haux : ∀ n (l : List Pubkey), l.length ≤ n → (chunks100 l).flatten = l from
    haux l.length l le_rfl
  intro n
  induction n with
  | zero =>
    intro l hl
    have hnil : l = [] := List.eq_nil_of_length_eq_zero (by omega)
    subst hnil
    simp [chunks100]
  | succ n ih =>
    intro l hl
    cases l with
    | nil => simp [chunks100]
    | cons a rest0 =>
      rw [chunks100]
      simp only [List.flatten_cons]
      rw [ih ((a :: rest0).drop ADDRESSES_CHUNK_SIZE)
        (by simp only [ADDRESSES_CHUNK_SIZE, List.length_drop, List.length_cons] at hl ⊢; omega)]
      exact List.take_append_drop ADDRESSES_CHUNK_SIZE (a :: rest0)

theorem chunks100_mem (l : List Pubkey) :
    ∀ c ∈ chunks100 l, c ≠ [] ∧ c.length ≤ ADDRESSES_CHUNK_SIZE := by
  suffices haux : ∀ n (l : List Pubkey), l.length ≤ n →
      ∀ c ∈ chunks100 l, c ≠ [] ∧ c.length ≤ ADDRESSES_CHUNK_SIZE from
    haux l.length l le_rfl
  intro n
  induction n with
  | zero =>
    intro l hl
    have hnil : l = [] := List.eq_nil_of_length_eq_zero (by omega)
    subst hnil
    simp [chunks100]
  | succ n ih =>
    intro l hl
    cases l with
    | nil => simp [chunks100]
    | cons a rest0 =>
      rw [chunks100]
      intro c hc
      rcases List.mem_cons.mp hc with rfl | hc
      · constructor
        · simp [ADDRESSES_CHUNK_SIZE]
        · simp [ADDRESSES_CHUNK_SIZE]
      · exact ih ((a :: rest0).drop ADDRESSES_CHUNK_SIZE)
          (by simp only [ADDRESSES_CHUNK_SIZE, List.length_drop, List.length_cons] at hl ⊢; omega)
          c hc

theorem chunks100_eq_nil (l : List Pubkey) : chunks100 l = [] ↔ l = [] := by
  cases l with
  | nil => simp [chunks100]
  | cons a rest0 =>
    rw [chunks100]
    simp

theorem chunks100_dropLast (l : List Pubkey) :
    ∀ c ∈ (chunks100 l).dropLast, c.length = ADDRESSES_CHUNK_SIZE := by
  suffices haux : ∀ n (l : List Pubkey), l.length ≤ n →
      ∀ c ∈ (chunks100 l).dropLast, c.length = ADDRESSES_CHUNK_SIZE from
    haux l.length l le_rfl
  intro n
  induction n with
  | zero =>
    intro l hl
    have hnil : l = [] := List.eq_nil_of_length_eq_zero (by omega)
    subst hnil
    simp [chunks100]
  | succ n ih =>
    intro l hl
    cases l with
    | nil => simp [chunks100]
    | cons a rest0 =>
      rw [chunks100]
      cases hcr : chunks100 ((a :: rest0).drop ADDRESSES_CHUNK_SIZE) with
      | nil => simp
      | cons x xs =>
        intro c hc
        rw [List.dropLast_cons_of_ne_nil (by simp)] at hc
        rcases List.mem_cons.mp hc with rfl | hc
        · have hne : (a :: rest0).drop ADDRESSES_CHUNK_SIZE ≠ [] := by
            intro hnil
            rw [hnil] at hcr
            simp [chunks100] at hcr
          have hlen : ADDRESSES_CHUNK_SIZE < (a :: rest0).length := by
            by_contra hcon
            exact hne (List.drop_eq_nil_of_le (by omega))
          simp only [List.length_take]
          omega
        · rw [← hcr] at hc
          exact ih ((a :: rest0).drop ADDRESSES_CHUNK_SIZE)
            (by simp only [ADDRESSES_CHUNK_SIZE, List.length_drop, List.length_cons] at hl ⊢; omega)
            c hc

theorem filterMap_fst_sublist {α : Type} (lookup : Pubkey → Option α) (l : List Pubkey) :
    ((l.filterMap (fun a => (lookup a).map (fun acct => (a, acct)))).map Prod.fst).Sublist l := by
  induction l with
  | nil => simp
  | cons a l ih =>
    cases hl : lookup a with
    | none =>
      simp only [List.filterMap_cons, hl]
      exact ih.cons a
    | some v =>
      simp only [List.filterMap_cons, hl, Option.map_some, List.map_cons]
      exact ih.cons₂ a

theorem get_accounts_eq {α : Type} (rpc : List Pubkey → Except String (List (Option α)))
    (lookup : Pubkey → Option α)
    (hrpc : ∀ chunk, rpc chunk = Except.ok (chunk.map lookup)) (addresses : List Pubkey) :
    get_accounts rpc addresses =
      (Except.ok (addresses.filterMap (fun a => (lookup a).map (fun acct => (a, acct)))),
        chunks100 addresses) := by
  suffices haux : ∀ n (addresses : List Pubkey), addresses.length ≤ n →
      get_accounts rpc addresses =
        (Except.ok (addresses.filterMap (fun a => (lookup a).map (fun acct => (a, acct)))),
          chunks100 addresses) from
    haux addresses.length addresses le_rfl
  intro n
  induction n with
  | zero =>
    intro addresses hl
    have hnil : addresses = [] := List.eq_nil_of_length_eq_zero (by omega)
    subst hnil
    simp [get_accounts, chunks100]
  | succ n ih =>
    intro addresses hl
    cases addresses with
    | nil => simp [get_accounts, chunks100]
    | cons a rest0 =>
      rw [get_accounts, chunks100, hrpc]
      simp only [zip_map_filterMap]
      rw [ih ((a :: rest0).drop ADDRESSES_CHUNK_SIZE)
        (by simp only [ADDRESSES_CHUNK_SIZE, List.length_drop, List.length_cons] at hl ⊢; omega)]
      have hsplit :
          ((a :: rest0).take ADDRESSES_CHUNK_SIZE).filterMap
              (fun a => (lookup a).map (fun acct => (a, acct))) ++
            ((a :: rest0).drop ADDRESSES_CHUNK_SIZE).filterMap
              (fun a => (lookup a).map (fun acct => (a, acct))) =
          (a :: rest0).filterMap (fun a => (lookup a).map (fun acct => (a, acct))) := by
        rw [← List.filterMap_append, List.take_append_drop]
      simp [hsplit]

/-- Claim C9: against a remote interface that answers each batch pointwise,
the multi-address fetch issues its requests exactly as the successive chunks
of ADDRESSES_CHUNK_SIZE (100) input addresses - every batch nonempty with at
most 100 addresses and every batch except possibly the last exactly 100, the
batches concatenating back to the input - and returns, in input order, exactly
the input addresses that have a record, each paired with its record;
record-less addresses are silently omitted rather than an error, and the
returned addresses form a sublist of the input. -/
theorem get_accounts_batches_and_omission {α : Type}
    (rpc : List Pubkey → Except String (List (Option α))) (lookup : Pubkey → Option α)
    (addresses : List Pubkey)
    (hrpc : ∀ chunk, rpc chunk = Except.ok (chunk.map lookup)) :
    (get_accounts rpc addresses).1 =
      Except.ok (addresses.filterMap (fun a => (lookup a).map (fun acct => (a, acct)))) ∧
    (get_accounts rpc addresses).2 = chunks100 addresses ∧
    (chunks100 addresses).flatten = addresses ∧
    (∀ c ∈ chunks100 addresses, c ≠ [] ∧ c.length ≤ ADDRESSES_CHUNK_SIZE) ∧
    (∀ c ∈ (chunks100 addresses).dropLast, c.length = ADDRESSES_CHUNK_SIZE) ∧
    ((addresses.filterMap
        (fun a => (lookup a).map (fun acct => (a, acct)))).map Prod.fst).Sublist addresses := by
  have heq := get_accounts_eq rpc lookup hrpc addresses
  exact ⟨by rw [heq], by rw [heq], chunks100_join addresses, chunks100_mem addresses,
    chunks100_dropLast addresses, filterMap_fst_sublist lookup addresses⟩

/-- Witness for C9: two addresses of which only the first has a record. -/
theorem get_accounts_batches_and_omission_witness :
    (get_accounts rpcEx [[1], [2]]).1 = Except.ok [([1], 5)] :=
  (get_accounts_batches_and_omission rpcEx lookupEx [[1], [2]] (fun _ => rfl)).1

/-- Claim C6: whenever restore reports not-restored (Ok false, or an error
which is only logged) and the bootstrap load succeeds, the start sequence runs
the full load_cache bootstrap exactly once, then attempts exactly one initial
snapshot persist, and a failing initial persist does not fail startup: the
sequence still reaches the worker spawns, the failure adding only the
warning event. -/
theorem orchestrator_fallback (env : StartEnv)
    (hres : env.restore_result = Except.ok false ∨ ∃ e, env.restore_result = Except.error e)
    (hload : env.load_cache_result = Except.ok ()) :
    service_manager_start env =
      Except.ok ([StartEvent.restoreSnap, StartEvent.loadCache, StartEvent.persistAttempt] ++
        (match env.persist_result with
         | Except.error _ => [StartEvent.warnPersistFailed]
         | Except.ok _ => []) ++ [StartEvent.spawnWorkers]) := by
  rcases hres with h | ⟨e, h⟩ <;> simp only [service_manager_start, h, hload]

/-- Witness for C6: restore finds no snapshot and the initial persist fails,
yet startup reaches the worker spawns after one bootstrap and one persist
attempt. -/
theorem orchestrator_fallback_witness :
    service_manager_start envBootstrap =
      Except.ok [StartEvent.restoreSnap, StartEvent.loadCache, StartEvent.persistAttempt,
        StartEvent.warnPersistFailed, StartEvent.spawnWorkers] :=
  orchestrator_fallback envBootstrap (Or.inl rfl) rfl

/-- Claim C10: when restore succeeds (Ok true) but the subsequent
auxiliary-account load fails, the start sequence propagates that error and
startup fails - unlike snapshot read and persist failures, which are logged
and tolerated. -/
theorem auxiliary_failure_after_restore_fatal (env : StartEnv) (e : String)
    (hres : env.restore_result = Except.ok true)
    (haux : env.load_auxiliary_result = Except.error e) :
    service_manager_start env = Except.error e := by
  simp only [service_manager_start, hres, haux]

/-- Witness for C10. -/
theorem auxiliary_failure_after_restore_fatal_witness :
    service_manager_start envAuxFail = Except.error ("aux load failed") :=
  auxiliary_failure_after_restore_fatal envAuxFail ("aux load failed") rfl rfl

/-- Claim C8: for each of the three worker threads - ingestion processor,
ingestion subscriber and decision service - an error returned by run produces
exactly the log entry followed by the process-terminating panic: the effect
list is never empty (no error is swallowed) and never contains a worker
restart. -/
theorem worker_failure_fatal (e : String) :
    worker_thread_body ("GeyserProcessor") (Except.error e) =
      [WorkerEffect.loggedError (("GeyserProcessor") ++ (" failed! ") ++ e),
        WorkerEffect.processAbort ("Fatal error in GeyserProcessor!")] ∧
    worker_thread_body ("GeyserSubscriber") (Except.error e) =
      [WorkerEffect.loggedError (("GeyserSubscriber") ++ (" failed! ") ++ e),
        WorkerEffect.processAbort ("Fatal error in GeyserSubscriber!")] ∧
    worker_thread_body ("LiquidationService") (Except.error e) =
      [WorkerEffect.loggedError (("LiquidationService") ++ (" failed! ") ++ e),
        WorkerEffect.processAbort ("Fatal error in LiquidationService!")] ∧
    (∀ label, WorkerEffect.restartWorker ∉ worker_thread_body label (Except.error e)) ∧
    (∀ label, worker_thread_body label (Except.error e) ≠ []) := by
  refine ⟨rfl, rfl, rfl, ?_, ?_⟩
  · intro label
    simp [worker_thread_body]
  · intro label
    simp [worker_thread_body]

/-- Instance of C8 at a concrete error text. -/
theorem worker_failure_fatal_witness :
    worker_thread_body ("GeyserProcessor") (Except.error ("boom")) =
      [WorkerEffect.loggedError ("GeyserProcessor failed! boom"),
        WorkerEffect.processAbort ("Fatal error in GeyserProcessor!")] :=
  ((worker_failure_fatal ("boom")).1).trans (by decide)
